import Mathlib

/-!
# GNU Make jobserver client of the Go compiler (`cmd/compile/internal/gc/jobserver.go`)

A shallow embedding of `newJobserverClient`, `Acquire`, `Release`, `checkFD`
and `setBlocking`, together with the library and system calls they use, and
the properties of the client's specification stated over that embedding.

Conventions.
* A Go `string` is a sequence of bytes: `GoString := List Nat`.
* A Go `int` is a 64-bit signed integer, carried as an `Int`.
* A Go `(value, error)` pair is a pair whose second component is an `Option`;
  `none` is the `nil` error.  A nil-able pointer is an `Option`.
* A run-time panic is the `Except.error` branch of the result.
* The functions of the packages `strings` and `strconv` that the client calls are
  written out after their Go implementation, for the one-byte separators and
  the 64-bit `int` the client uses them with.
* System calls are taken from a record `Sys σ` of state-passing functions over
  a process state `σ`; `kernelSys` is a concrete instance with a descriptor
  table, pipes and a record of the calls made.
-/

namespace Jobserver

deriving instance DecidableEq for Except

/-! ## Strings -/

/-- A Go string: its bytes. -/
abbrev GoString := List Nat

/-- The bytes of an ASCII literal. -/
def str (s : String) : GoString := s.toList.map Char.toNat

/-- The function `strings.HasPrefix(s, pre)`. -/
def HasPrefix (s pre : GoString) : Bool := pre.isPrefixOf s

/-- The function `strings.Count(s, sep)` for a one-byte separator. -/
def Count (s : GoString) (sep : Nat) : Nat := s.count sep

/-- The function `strings.Cut(s, sep)` for a one-byte separator: the text before and after
the first `sep`, or `none` when `s` has no `sep` (`strings.Index` returned -1). -/
def cutAt (sep : Nat) : GoString → Option (GoString × GoString)
  | [] => none
  | c :: cs =>
    if c = sep then some ([], cs)
    else match cutAt sep cs with
      | none => none
      | some (a, b) => some (c :: a, b)

/-- The function `strings.SplitN(s, sep, n)` for a one-byte separator and `n ≥ 0`: at most
`n` pieces, the last one being the unsplit remainder. -/
def SplitN (s : GoString) (sep : Nat) : Nat → List GoString
  | 0 => []
  | 1 => [s]
  | n + 2 =>
    match cutAt sep s with
    | none => [s]
    | some (a, rest) => a :: SplitN rest sep (n + 1)

/-- The function `strings.Split(s, sep)` for a one-byte separator: `SplitN` with the piece
count `Count(s, sep) + 1`, as `genSplit` does for a negative `n`. -/
def Split (s : GoString) (sep : Nat) : List GoString := SplitN s sep (Count s sep + 1)

/-! ## `strconv.Atoi` -/

/-- The two causes carried by a `*strconv.NumError`. -/
inductive NumError
  /-- `strconv.ErrSyntax`: "invalid syntax". -/
  | invalid
  /-- `strconv.ErrRange`: "value out of range". -/
  | outOfRange
  deriving DecidableEq, Repr

/-- The digit loop of `strconv.ParseUint(s, 10, 64)`, started with the value `n`.  A byte
`ch` is a decimal digit when `ch - '0'`, computed in `uint8`, is at most 9; any other byte
is a syntax error, a value above `2^64 - 1` is a range error, whichever comes first. -/
def parseUint : GoString → Nat → Except NumError Nat
  | [], n => .ok n
  | ch :: cs, n =>
    let d := (ch + 256 - 48) % 256
    if d > 9 then .error .invalid
    else if n ≥ 2 ^ 64 / 10 + 1 then .error .outOfRange
    else if n * 10 + d > 2 ^ 64 - 1 then .error .outOfRange
    else parseUint cs (n * 10 + d)

/-- The function `strconv.Atoi(s)` on a 64-bit platform, i.e. `ParseInt(s, 10, 0)`: an
optional sign `+` (43) or `-` (45), then at least one decimal digit, the value within
`[-2^63, 2^63 - 1]`. -/
def Atoi (s : GoString) : Except NumError Int :=
  match s with
  | [] => .error .invalid
  | c :: cs =>
    let neg : Bool := c = 45
    let body := if c = 43 ∨ c = 45 then cs else s
    if body = [] then .error .invalid
    else match parseUint body 0 with
      | .error e => .error e
      | .ok un =>
        if neg then
          if un > 2 ^ 63 then .error .outOfRange else .ok (-(un : Int))
        else
          if un ≥ 2 ^ 63 then .error .outOfRange else .ok (un : Int)

/-- The decimal digits of `n`, most significant first; `fuel` bounds the number of digits. -/
def natDigits : Nat → Nat → GoString
  | 0, _ => []
  | fuel + 1, n => if n < 10 then [48 + n] else natDigits fuel (n / 10) ++ [48 + n % 10]

/-- The decimal rendering of an integer, as `strconv.Itoa` writes it. -/
def Itoa (i : Int) : GoString :=
  if i < 0 then 45 :: natDigits (i.natAbs + 1) i.natAbs else natDigits (i.natAbs + 1) i.natAbs

/-! ## The client's data -/

/-- The struct `jobserverClient`. -/
structure jobserverClient where
  fdRead : Int
  fdWrite : Int
  deriving DecidableEq, Repr

/-- The struct `jobserverToken`; `client` is the client that `Acquire` was called on. -/
structure jobserverToken where
  client : jobserverClient
  token : Nat
  deriving DecidableEq, Repr

/-- An `errno` value. -/
abbrev Errno := Nat

/-- The errors the client returns, one constructor per message. -/
inductive JsError
  /-- "cannot parse jobserver read fd: %v". -/
  | cannotParseReadFd (err : NumError)
  /-- "cannot parse jobserver write fd: %v". -/
  | cannotParseWriteFd (err : NumError)
  /-- "cannot parse --jobserver-auth from $MAKEFLAGS: %s". -/
  | cannotParseMakeflags (makeFlags : GoString)
  /-- "unable to read from jobserver file descriptors; does make know this can work with a
  jobserver (try adding + before the go invocation)". -/
  | unableToRead
  /-- "cannot set read descriptor as blocking". -/
  | cannotSetReadBlocking
  /-- "cannot set write descriptor as blocking". -/
  | cannotSetWriteBlocking
  /-- "cannot read from jobserver FD: %w". -/
  | cannotRead (err : Errno)
  /-- "got unexpected number of bytes from jobserver FD: %d". -/
  | unexpectedReadCount (rv : Int)
  /-- "cannot write to jobserver FD: %w". -/
  | cannotWrite (err : Errno)
  /-- "wrote unexpected number of bytes to jobserver FD: %d". -/
  | unexpectedWriteCount (rv : Int)
  deriving DecidableEq, Repr

/-- A run-time panic of the Go program. -/
inductive Panic
  /-- "index out of range [index] with length len". -/
  | indexOutOfRange (index len : Nat)
  deriving DecidableEq, Repr

/-! ## Parsing `$MAKEFLAGS` -/

/-- The text `--jobserver-auth=`. -/
def jobserverAuth : GoString := str "--jobserver-auth="

/-- The text `--jobserver-fds=`. -/
def jobserverFds : GoString := str "--jobserver-fds="

/-- The condition of the `if` in the loop over the arguments. -/
def recognized (arg : GoString) : Bool := HasPrefix arg jobserverAuth || HasPrefix arg jobserverFds

/-- How the loop over the arguments ends. -/
inductive Scan
  /-- The loop ran to its end without a match. -/
  | fallThrough
  /-- The statement `goto gotFDs`, with both fields of `jsc` set. -/
  | gotoGotFDs (jsc : jobserverClient)
  /-- The statement `return nil, err` inside the loop. -/
  | failed (err : JsError)
  /-- An index expression was out of range. -/
  | panicked (p : Panic)
  deriving DecidableEq, Repr

/-- The indexing `xs[i]` of a slice. -/
def index (xs : List GoString) (i : Nat) : Except Panic GoString :=
  match xs.get? i with
  | some x => .ok x
  | none => .error (.indexOutOfRange i xs.length)

/-- The body of the `if` in the loop, for an argument that carries a recognized flag. -/
def parseArg (arg : GoString) : Scan :=
  match index (SplitN arg 61 2) 1 with
  | .error p => .panicked p
  | .ok value =>
    let fds := SplitN value 44 2
    match index fds 0 with
    | .error p => .panicked p
    | .ok f0 =>
      match Atoi f0 with
      | .error e => .failed (.cannotParseReadFd e)
      | .ok fdRead =>
        match index fds 1 with
        | .error p => .panicked p
        | .ok f1 =>
          match Atoi f1 with
          | .error e => .failed (.cannotParseWriteFd e)
          | .ok fdWrite => .gotoGotFDs ⟨fdRead, fdWrite⟩

/-- The loop `for _, arg := range strings.Split(makeFlags, " ")`. -/
def scanArgs : List GoString → Scan
  | [] => .fallThrough
  | arg :: rest => if recognized arg then parseArg arg else scanArgs rest

/-! ## System calls -/

/-- What a `syscall.Read` into a one-byte buffer returns: the count, the error, and the
byte the buffer holds after the call. -/
structure ReadResult where
  rv : Int
  err : Option Errno
  byte : Nat
  deriving DecidableEq, Repr

/-- What a `syscall.Write` returns: the count and the error. -/
structure WriteResult where
  rv : Int
  err : Option Errno
  deriving DecidableEq, Repr

/-- The system and library calls with an effect, as functions on a process state `σ`.
`Read` and `Write` return `none` when the call blocks and never returns. -/
structure Sys (σ : Type) where
  /-- The call `syscall.Fstat(fd, &syscall.Stat_t{})`. -/
  Fstat : Int → σ → Option Errno × σ
  /-- The call `syscall.FcntlInt(fd, cmd, arg)`; the value is returned with a nil error. -/
  FcntlInt : Nat → Nat → Nat → σ → Except Errno Nat × σ
  /-- The call `syscall.Read(fd, buf)` for a one-byte `buf` holding the given byte. -/
  Read : Int → Nat → σ → Option ReadResult × σ
  /-- The call `syscall.Write(fd, []byte{b})`. -/
  Write : Int → Nat → σ → Option WriteResult × σ
  /-- The call `log.Printf(msg)`. -/
  Printf : String → σ → σ

/-- The constant `syscall.F_GETFL` (linux). -/
def F_GETFL : Nat := 3

/-- The constant `syscall.F_SETFL` (linux). -/
def F_SETFL : Nat := 4

/-- The constant `syscall.O_NONBLOCK` (linux/amd64). -/
def O_NONBLOCK : Nat := 0x800

/-- The conversion `uintptr(fd)` of a 64-bit `int`. -/
def uintptr (fd : Int) : Nat := (fd % 2 ^ 64).toNat

/-- The Go operator `a &^ b` (bit clear) on non-negative values. -/
def bitClear (a b : Nat) : Nat := a ^^^ (a &&& b)

/-! ## The client -/

/-- The function `checkFD`. -/
def checkFD {σ : Type} (sys : Sys σ) (fd : Int) (st : σ) : Option Errno × σ :=
  sys.Fstat fd st

/-- The function `setBlocking`. -/
def setBlocking {σ : Type} (sys : Sys σ) (fd : Int) (st : σ) : Option Errno × σ :=
  let r := sys.FcntlInt (uintptr fd) F_GETFL 0 st
  match r.1 with
  | .error err => (some err, r.2)
  | .ok flags =>
    if flags &&& O_NONBLOCK = O_NONBLOCK then
      let w := sys.FcntlInt (uintptr fd) F_SETFL (bitClear flags O_NONBLOCK) r.2
      match w.1 with
      | .error err => (some err, w.2)
      | .ok _ => (none, w.2)
    else (none, r.2)

/-- What `newJobserverClient` returns: a panic, or the pair `(*jobserverClient, error)`. -/
abbrev Discovery := Except Panic (Option jobserverClient × Option JsError)

/-- The code of `newJobserverClient` from the label `gotFDs` on. -/
def gotFDs {σ : Type} (sys : Sys σ) (jsc : jobserverClient) (st : σ) : Discovery × σ :=
  let c1 := checkFD sys jsc.fdRead st
  if c1.1 ≠ none then (.ok (none, some .unableToRead), c1.2)
  else
    let c2 := checkFD sys jsc.fdWrite c1.2
    if c2.1 ≠ none then (.ok (none, some .unableToRead), c2.2)
    else
      let b1 := setBlocking sys jsc.fdRead c2.2
      if b1.1 ≠ none then (.ok (none, some .cannotSetReadBlocking), b1.2)
      else
        let b2 := setBlocking sys jsc.fdWrite b1.2
        if b2.1 ≠ none then (.ok (none, some .cannotSetWriteBlocking), b2.2)
        else (.ok (some jsc, none), b2.2)

/-- The function `newJobserverClient`; `makeFlags` is the value of `os.Getenv("MAKEFLAGS")`. -/
def newJobserverClient {σ : Type} (sys : Sys σ) (makeFlags : GoString) (st : σ) :
    Discovery × σ :=
  if makeFlags = [] then (.ok (none, none), st)
  else
    match scanArgs (Split makeFlags 32) with
    | .panicked p => (.error p, st)
    | .failed err => (.ok (none, some err), st)
    | .fallThrough => (.ok (none, some (.cannotParseMakeflags makeFlags)), st)
    | .gotoGotFDs jsc => gotFDs sys jsc st

/-- The method `(*jobserverClient).Acquire`; the outer `none` is a read that never returns. -/
def Acquire {σ : Type} (sys : Sys σ) (jsc : jobserverClient) (st : σ) :
    Option (Option jobserverToken × Option JsError) × σ :=
  let st1 := sys.Printf "attempting to acquire jobserver token" st
  let r := sys.Read jsc.fdRead 0 st1
  match r.1 with
  | none => (none, r.2)
  | some res =>
    match res.err with
    | some err => (some (none, some (.cannotRead err)), r.2)
    | none =>
      if res.rv ≠ 1 then (some (none, some (.unexpectedReadCount res.rv)), r.2)
      else
        (some (some ⟨jsc, res.byte⟩, none), sys.Printf "acquired jobserver token" r.2)

/-- The method `(*jobserverToken).Release`; `jst = none` is the nil token, and the outer
`none` of the result is a write that never returns. -/
def Release {σ : Type} (sys : Sys σ) (jst : Option jobserverToken) (st : σ) :
    Option (Option JsError) × σ :=
  match jst with
  | none => (some none, st)
  | some tok =>
    let st1 := sys.Printf "releasing jobserver token" st
    let w := sys.Write tok.client.fdWrite tok.token st1
    match w.1 with
    | none => (none, w.2)
    | some res =>
      let st2 := sys.Printf "released jobserver token" w.2
      match res.err with
      | some err => (some (some (.cannotWrite err)), st2)
      | none =>
        if res.rv ≠ 1 then (some (some (.unexpectedWriteCount res.rv)), st2)
        else (some none, st2)

/-! ## A kernel: descriptors, pipes and the calls made -/

/-- What an open descriptor refers to. -/
inductive FileKind
  /-- The read end of pipe `p`. -/
  | pipeRead (p : Nat)
  /-- The write end of pipe `p`. -/
  | pipeWrite (p : Nat)
  /-- A file like `/dev/null`: reads return end of file, writes are accepted. -/
  | devNull
  deriving DecidableEq, Repr

/-- An open descriptor: what it refers to, its file status flags, and the error (if any)
with which `fcntl(F_GETFL)` and `fcntl(F_SETFL)` fail on it. -/
structure FdEntry where
  kind : FileKind
  flags : Nat
  getflErr : Option Errno
  setflErr : Option Errno
  deriving DecidableEq, Repr

/-- A pipe: the bytes buffered in it, oldest first, and its capacity. -/
structure Pipe where
  buf : List Nat
  cap : Nat
  deriving DecidableEq, Repr

/-- A call made on the kernel. -/
inductive Event
  | fstat (fd : Int)
  | getfl (fd : Int)
  | setfl (fd : Int) (flags : Nat)
  | fcntl (fd : Int) (cmd arg : Nat)
  | read (fd : Int)
  | write (fd : Int) (b : Nat)
  | log (msg : String)
  deriving DecidableEq, Repr

/-- The state of the process and its kernel objects: the descriptor table, the pipes, and
the calls made so far, oldest first. -/
structure Kernel where
  fds : Nat → Option FdEntry
  pipes : Nat → Pipe
  events : List Event

/-- The error `EBADF`. -/
def EBADF : Errno := 9

/-- The error `EAGAIN`. -/
def EAGAIN : Errno := 11

/-- The error `EINVAL`. -/
def EINVAL : Errno := 22

/-- The slot of the descriptor table that the number `fd` names.  The system calls `fstat`,
`fcntl`, `read` and `write` take the descriptor as an `unsigned int`, so only the low 32
bits of the Go `int` count: -4294967293 and 4294967299 both name descriptor 3, and -1 names
slot 4294967295. -/
def fdKey (fd : Int) : Nat := (fd % 2 ^ 32).toNat

/-- The entry of the descriptor that the number `fd` names, if it is open. -/
def Kernel.lookup (k : Kernel) (fd : Int) : Option FdEntry := k.fds (fdKey fd)

/-- Appends a call to the record. -/
def Kernel.note (k : Kernel) (e : Event) : Kernel := { k with events := k.events ++ [e] }

/-- The conversion `int(fd)` of a `uintptr`. -/
def intOfUintptr (u : Nat) : Int := if u % 2 ^ 64 < 2 ^ 63 then (u % 2 ^ 64 : Nat) else (u % 2 ^ 64 : Nat) - 2 ^ 64

/-- The system call `fstat`: succeeds on an open descriptor and fails with `EBADF` on a
number that names none. -/
def Kernel.fstat (fd : Int) (k : Kernel) : Option Errno × Kernel :=
  match k.lookup fd with
  | none => (some EBADF, k.note (.fstat fd))
  | some _ => (none, k.note (.fstat fd))

/-- The system call `fcntl` for `F_GETFL` and `F_SETFL`; `F_SETFL` stores its argument as
the descriptor's status flags. -/
def Kernel.fcntl (ufd cmd arg : Nat) (k : Kernel) : Except Errno Nat × Kernel :=
  let fd := intOfUintptr ufd
  if cmd = F_GETFL then
    match k.lookup fd with
    | none => (.error EBADF, k.note (.getfl fd))
    | some e =>
      match e.getflErr with
      | some err => (.error err, k.note (.getfl fd))
      | none => (.ok e.flags, k.note (.getfl fd))
  else if cmd = F_SETFL then
    match k.lookup fd with
    | none => (.error EBADF, k.note (.setfl fd arg))
    | some e =>
      match e.setflErr with
      | some err => (.error err, k.note (.setfl fd arg))
      | none =>
        (.ok 0, { (k.note (.setfl fd arg)) with
                  fds := Function.update k.fds (fdKey fd) (some { e with flags := arg }) })
  else (.error EINVAL, k.note (.fcntl fd cmd arg))

/-- The system call `read` of one byte: the oldest byte of a pipe; on an empty pipe
`EAGAIN` in non-blocking mode, and otherwise the call blocks. -/
def Kernel.read (fd : Int) (b0 : Nat) (k : Kernel) : Option ReadResult × Kernel :=
  match k.lookup fd with
  | none => (some ⟨-1, some EBADF, b0⟩, k.note (.read fd))
  | some e =>
    match e.kind with
    | .pipeWrite _ => (some ⟨-1, some EBADF, b0⟩, k.note (.read fd))
    | .devNull => (some ⟨0, none, b0⟩, k.note (.read fd))
    | .pipeRead p =>
      match (k.pipes p).buf with
      | b :: bs =>
        (some ⟨1, none, b⟩, { (k.note (.read fd)) with
                               pipes := Function.update k.pipes p { k.pipes p with buf := bs } })
      | [] =>
        if e.flags &&& O_NONBLOCK = O_NONBLOCK then
          (some ⟨-1, some EAGAIN, b0⟩, k.note (.read fd))
        else (none, k.note (.read fd))

/-- The system call `write` of one byte: appended to a pipe with room; on a full pipe
`EAGAIN` in non-blocking mode, and otherwise the call blocks. -/
def Kernel.write (fd : Int) (b : Nat) (k : Kernel) : Option WriteResult × Kernel :=
  match k.lookup fd with
  | none => (some ⟨-1, some EBADF⟩, k.note (.write fd b))
  | some e =>
    match e.kind with
    | .pipeRead _ => (some ⟨-1, some EBADF⟩, k.note (.write fd b))
    | .devNull => (some ⟨1, none⟩, k.note (.write fd b))
    | .pipeWrite p =>
      if (k.pipes p).buf.length < (k.pipes p).cap then
        (some ⟨1, none⟩, { (k.note (.write fd b)) with
                            pipes := Function.update k.pipes p
                              { k.pipes p with buf := (k.pipes p).buf ++ [b] } })
      else if e.flags &&& O_NONBLOCK = O_NONBLOCK then
        (some ⟨-1, some EAGAIN⟩, k.note (.write fd b))
      else (none, k.note (.write fd b))

/-- The calls of `Sys`, served by the kernel. -/
def kernelSys : Sys Kernel where
  Fstat := Kernel.fstat
  FcntlInt := Kernel.fcntl
  Read := Kernel.read
  Write := Kernel.write
  Printf := fun msg k => k.note (.log msg)

/-- A descriptor that is open on a file of the given kind with the given flags, and on
which no call fails. -/
def plainFd (kind : FileKind) (flags : Nat) : FdEntry := ⟨kind, flags, none, none⟩

/-- A process that inherited pipe 0 (holding the bytes `buf`) as descriptors 3 (read end,
non-blocking) and 4 (write end), with 0, 1 and 2 open on `/dev/null`. -/
def makeKernel (buf : List Nat) : Kernel where
  fds := fun n =>
    if n = 3 then some (plainFd (.pipeRead 0) 0x800)
    else if n = 4 then some (plainFd (.pipeWrite 0) 0x1)
    else if n < 3 then some (plainFd .devNull 0x2)
    else none
  pipes := fun _ => ⟨buf, 65536⟩
  events := []

/-! ## Notions used to state the properties -/

/-- The loop's outcome on a recognized flag whose value is `r,w` with no comma in `r`. -/
def parsePair (r w : GoString) : Scan :=
  match Atoi r with
  | .error e => .failed (.cannotParseReadFd e)
  | .ok fdRead =>
    match Atoi w with
    | .error e => .failed (.cannotParseWriteFd e)
    | .ok fdWrite => .gotoGotFDs ⟨fdRead, fdWrite⟩

/-- The values of the Go type `int` on a 64-bit platform. -/
def isInt (i : Int) : Prop := -2 ^ 63 ≤ i ∧ i < 2 ^ 63

instance (i : Int) : Decidable (isInt i) := by unfold isInt; infer_instance

/-- The descriptor is open, so that `fstat` succeeds on it. -/
def Kernel.statable (k : Kernel) (fd : Int) : Bool := (k.lookup fd).isSome

/-- The descriptor is open and its mode can be queried and set. -/
def Kernel.usable (k : Kernel) (fd : Int) : Bool :=
  match k.lookup fd with
  | some e => e.getflErr.isNone && e.setflErr.isNone
  | none => false

/-- The entry `e` with `O_NONBLOCK` cleared. -/
def FdEntry.blocking (e : FdEntry) : FdEntry := { e with flags := bitClear e.flags O_NONBLOCK }

/-! ## Lemmas on the string functions -/

theorem cutAt_append (sep : Nat) (a b : GoString) (h : sep ∉ a) :
    cutAt sep (a ++ sep :: b) = some (a, b) := by
  induction a with
  | nil => simp [cutAt]
  | cons c cs ih =>
    have hc : c ≠ sep := fun e => h (by simp [e])
    have hcs : sep ∉ cs := fun e => h (by simp [e])
    simp [cutAt, hc, ih hcs]

theorem cutAt_of_not_mem (sep : Nat) (a : GoString) (h : sep ∉ a) : cutAt sep a = none := by
  induction a with
  | nil => simp [cutAt]
  | cons c cs ih =>
    have hc : c ≠ sep := fun e => h (by simp [e])
    have hcs : sep ∉ cs := fun e => h (by simp [e])
    simp [cutAt, hc, ih hcs]

theorem cutAt_some (sep : Nat) (s a b : GoString) (h : cutAt sep s = some (a, b)) :
    s = a ++ sep :: b := by
  induction s generalizing a b with
  | nil => simp [cutAt] at h
  | cons c cs ih =>
    unfold cutAt at h
    split_ifs at h with hc
    · simp at h
      obtain ⟨h1, h2⟩ := h
      subst h1 h2 hc
      rfl
    · cases hcut : cutAt sep cs with
      | none => simp [hcut] at h
      | some ab =>
        obtain ⟨a1, b1⟩ := ab
        simp [hcut] at h
        obtain ⟨h1, h2⟩ := h
        subst h1 h2
        rw [ih a1 b1 hcut]
        rfl

theorem Split_nil : Split [] 32 = [[]] := rfl

/-- A string without the separator is its own single piece. -/
theorem Split_of_not_mem (sep : Nat) (a : GoString) (h : sep ∉ a) : Split a sep = [a] := by
  unfold Split Count
  rw [List.count_eq_zero_of_not_mem h]
  rfl

/-- The first piece ends at the first separator; the rest is split in turn. -/
theorem Split_append (sep : Nat) (a b : GoString) (h : sep ∉ a) :
    Split (a ++ sep :: b) sep = a :: Split b sep := by
  unfold Split Count
  rw [List.count_append, List.count_eq_zero_of_not_mem h, List.count_cons_self]
  have e : 0 + (List.count sep b + 1) + 1 = List.count sep b + 2 := by omega
  rw [e]
  simp only [SplitN, cutAt_append sep a b h]

/-- Every piece of a split is a contiguous part of the string. -/
theorem mem_SplitN_infix (sep n : Nat) (s t : GoString) (h : t ∈ SplitN s sep n) :
    t <:+: s := by
  induction n generalizing s with
  | zero => simp [SplitN] at h
  | succ m ih =>
    cases m with
    | zero =>
      simp [SplitN] at h
      rw [h]
    | succ j =>
      unfold SplitN at h
      cases hcut : cutAt sep s with
      | none =>
        simp [hcut] at h
        rw [h]
      | some ab =>
        obtain ⟨a, rest⟩ := ab
        simp only [hcut, List.mem_cons] at h
        have hs := cutAt_some sep s a rest hcut
        rcases h with h | h
        · rw [h, hs]
          exact (List.prefix_append a _).isInfix
        · have h1 := ih rest h
          rw [hs]
          exact h1.trans ((List.suffix_cons sep rest).isInfix.trans
            (List.suffix_append a _).isInfix)

/-- A string that does not contain the text of either flag has no token that begins
with one. -/
theorem recognized_false_of_no_flag_text (makeFlags : GoString)
    (h : ¬ jobserverAuth <:+: makeFlags ∧ ¬ jobserverFds <:+: makeFlags) :
    ∀ t ∈ Split makeFlags 32, recognized t = false := by
  intro t ht
  have hin := mem_SplitN_infix 32 _ makeFlags t ht
  cases hrec : recognized t with
  | false => rfl
  | true =>
    exfalso
    unfold recognized HasPrefix at hrec
    simp only [Bool.or_eq_true, List.isPrefixOf_iff_prefix] at hrec
    rcases hrec with h1 | h1
    · exact h.1 (h1.isInfix.trans hin)
    · exact h.2 (h1.isInfix.trans hin)

theorem scanArgs_append (pre : List GoString) (tok : GoString) (post : List GoString)
    (hpre : ∀ t ∈ pre, recognized t = false) (htok : recognized tok = true) :
    scanArgs (pre ++ tok :: post) = parseArg tok := by
  induction pre with
  | nil => simp [scanArgs, htok]
  | cons t ts ih =>
    have ht : recognized t = false := hpre t (by simp)
    have hts : ∀ u ∈ ts, recognized u = false := fun u hu => hpre u (by simp [hu])
    simp [scanArgs, ht, ih hts]

theorem scanArgs_fallThrough (l : List GoString) (h : ∀ t ∈ l, recognized t = false) :
    scanArgs l = .fallThrough := by
  induction l with
  | nil => rfl
  | cons t ts ih =>
    have ht : recognized t = false := h t (by simp)
    have hts : ∀ u ∈ ts, recognized u = false := fun u hu => h u (by simp [hu])
    simp [scanArgs, ht, ih hts]

theorem recognized_flag (flag value : GoString)
    (hflag : flag = jobserverAuth ∨ flag = jobserverFds) : recognized (flag ++ value) = true := by
  rcases hflag with rfl | rfl
  · simp [recognized, HasPrefix]
  · simp [recognized, HasPrefix]

theorem value_of_flag (flag value : GoString)
    (hflag : flag = jobserverAuth ∨ flag = jobserverFds) :
    index (SplitN (flag ++ value) 61 2) 1 = .ok value := by
  rcases hflag with rfl | rfl <;> rfl

theorem parseArg_pair (flag r w : GoString)
    (hflag : flag = jobserverAuth ∨ flag = jobserverFds) (hr : 44 ∉ r) :
    parseArg (flag ++ r ++ 44 :: w) = parsePair r w := by
  have hv := value_of_flag flag (r ++ 44 :: w) hflag
  rw [← List.append_assoc] at hv
  have hs : SplitN (r ++ 44 :: w) 44 2 = [r, w] := by
    simp [SplitN, cutAt_append 44 r w hr]
  unfold parseArg parsePair
  rw [hv]
  simp only [hs, index, List.get?]

/-- A recognized flag whose value has no comma and is a valid integer makes the index
expression `fds[1]` panic. -/
theorem parseArg_without_comma (flag v : GoString) (n : Int)
    (hflag : flag = jobserverAuth ∨ flag = jobserverFds) (hv : 44 ∉ v) (hn : Atoi v = .ok n) :
    parseArg (flag ++ v) = .panicked (.indexOutOfRange 1 1) := by
  have hs : SplitN v 44 2 = [v] := by
    simp [SplitN, cutAt_of_not_mem 44 v hv]
  unfold parseArg
  rw [value_of_flag flag v hflag]
  simp only [hs, index, List.get?, hn, List.length_singleton]

/-- The outcome of the loop for a `$MAKEFLAGS` whose first recognized token is
`flag ++ r ++ "," ++ w`; such a `$MAKEFLAGS` is not empty. -/
theorem scan_first_flag (makeFlags : GoString) (pre post : List GoString)
    (flag r w : GoString) (hflag : flag = jobserverAuth ∨ flag = jobserverFds)
    (hsplit : Split makeFlags 32 = pre ++ (flag ++ r ++ 44 :: w) :: post)
    (hpre : ∀ t ∈ pre, recognized t = false) (hr : 44 ∉ r) :
    makeFlags ≠ [] ∧ scanArgs (Split makeFlags 32) = parsePair r w := by
  constructor
  · rintro rfl
    rw [Split_nil] at hsplit
    cases pre with
    | nil =>
      simp at hsplit
    | cons t ts =>
      simp at hsplit
  · rw [hsplit, scanArgs_append pre _ post hpre, parseArg_pair flag r w hflag hr]
    rw [List.append_assoc]
    exact recognized_flag flag _ hflag

/-! ## Lemmas on `Atoi` -/

theorem parseUint_append (a b : GoString) (n : Nat) :
    parseUint (a ++ b) n =
      match parseUint a n with
      | .ok m => parseUint b m
      | .error e => .error e := by
  induction a generalizing n with
  | nil => simp [parseUint]
  | cons c cs ih =>
    simp only [List.cons_append, parseUint]
    split_ifs <;> simp [ih]

theorem natDigits_ne_nil (fuel n : Nat) : natDigits (fuel + 1) n ≠ [] := by
  unfold natDigits
  split_ifs <;> simp

theorem natDigits_digit (fuel n : Nat) : ∀ c ∈ natDigits fuel n, 48 ≤ c ∧ c ≤ 57 := by
  induction fuel generalizing n with
  | zero => simp [natDigits]
  | succ f ih =>
    intro c hc
    unfold natDigits at hc
    split_ifs at hc with h
    · simp at hc; omega
    · simp at hc
      rcases hc with hc | hc
      · exact ih _ c hc
      · omega

theorem parseUint_natDigits (fuel n : Nat) (hf : n < fuel) (hn : n < 2 ^ 64) :
    parseUint (natDigits fuel n) 0 = .ok n := by
  induction fuel generalizing n with
  | zero => omega
  | succ f ih =>
    unfold natDigits
    split_ifs with h
    · have hd : (48 + n + 256 - 48) % 256 = n := by omega
      have c1 : ¬ (n > 9) := by omega
      have c2 : ¬ (0 ≥ 2 ^ 64 / 10 + 1) := by omega
      have c3 : ¬ (0 * 10 + n > 2 ^ 64 - 1) := by omega
      simp only [parseUint, hd, c1, c2, c3, if_false]
      simp
    · have h1 : n / 10 < f := by omega
      have h2 : n / 10 < 2 ^ 64 := by omega
      rw [parseUint_append, ih (n / 10) h1 h2]
      have hd : (48 + n % 10 + 256 - 48) % 256 = n % 10 := by omega
      have e : n / 10 * 10 + n % 10 = n := by omega
      have c1 : ¬ (n % 10 > 9) := by omega
      have c2 : ¬ (n / 10 ≥ 2 ^ 64 / 10 + 1) := by omega
      have c3 : ¬ (n > 2 ^ 64 - 1) := by omega
      simp only [parseUint, hd, e, c1, c2, c3, if_false]

/-- The function `Atoi` reads back what `Itoa` wrote, for every value of type `int`. -/
theorem Atoi_Itoa (i : Int) (hi : isInt i) : Atoi (Itoa i) = .ok i := by
  obtain ⟨lo, hi⟩ := hi
  have hp := parseUint_natDigits (i.natAbs + 1) i.natAbs (by omega) (by omega)
  have hne := natDigits_ne_nil i.natAbs i.natAbs
  have hdig := natDigits_digit (i.natAbs + 1) i.natAbs
  unfold Itoa
  split_ifs with hneg
  · simp only [Atoi]
    simp [hne, hp]
    rw [abs_of_neg hneg, if_neg (by omega)]
    simp
  · revert hp hne hdig
    generalize natDigits (i.natAbs + 1) i.natAbs = ds
    intro hp hne hdig
    cases ds with
    | nil => exact absurd rfl hne
    | cons c cs =>
      have hc := hdig c (by simp)
      have h43 : c ≠ 43 := by omega
      have h45 : c ≠ 45 := by omega
      simp only [Atoi]
      simp [h43, h45, hp]
      rw [abs_of_nonneg (by omega), if_neg (by omega)]

theorem comma_not_mem_Itoa (i : Int) : 44 ∉ Itoa i := by
  intro h
  unfold Itoa at h
  split_ifs at h
  · simp at h
    have := natDigits_digit _ _ 44 h
    omega
  · have := natDigits_digit _ _ 44 h
    omega

theorem Atoi_isInt (s : GoString) (i : Int) (h : Atoi s = .ok i) : isInt i := by
  unfold Atoi at h
  split at h
  · simp at h
  · simp only at h
    split_ifs at h
    all_goals first
      | (simp at h; done)
      | (split at h
         · simp at h
         · split_ifs at h
           all_goals (simp at h; unfold isInt; omega))

/-! ## Lemmas on the kernel -/

theorem intOfUintptr_uintptr (fd : Int) (h : isInt fd) : intOfUintptr (uintptr fd) = fd := by
  obtain ⟨lo, hi⟩ := h
  unfold intOfUintptr uintptr
  split_ifs <;> omega

@[simp] theorem lookup_note (k : Kernel) (e : Event) (fd : Int) :
    (k.note e).lookup fd = k.lookup fd := rfl

@[simp] theorem fds_note (k : Kernel) (e : Event) : (k.note e).fds = k.fds := rfl

@[simp] theorem pipes_note (k : Kernel) (e : Event) : (k.note e).pipes = k.pipes := rfl

@[simp] theorem events_note (k : Kernel) (e : Event) : (k.note e).events = k.events ++ [e] := rfl

theorem checkFD_kernel (fd : Int) (k : Kernel) :
    checkFD kernelSys fd k =
      (if k.statable fd then none else some EBADF, k.note (.fstat fd)) := by
  unfold checkFD kernelSys Kernel.fstat Kernel.statable
  cases h : k.lookup fd with
  | none => simp [h]
  | some e => simp [h]

theorem checkFD_kernel_snd (fd : Int) (k : Kernel) :
    (checkFD kernelSys fd k).2 = k.note (.fstat fd) := by
  rw [checkFD_kernel]

theorem checkFD_kernel_fst (fd : Int) (k : Kernel) :
    (checkFD kernelSys fd k).1 = none ↔ k.statable fd = true := by
  rw [checkFD_kernel]
  by_cases h : k.statable fd <;> simp [h]

theorem and_nonblock (x : Nat) : x &&& O_NONBLOCK = O_NONBLOCK ∨ x &&& O_NONBLOCK = 0 := by
  have h11 : O_NONBLOCK = 2 ^ 11 := by decide
  rw [h11]
  cases hb : x.testBit 11
  · right
    apply Nat.eq_of_testBit_eq
    intro i
    simp only [Nat.testBit_and, Nat.testBit_two_pow, Nat.zero_testBit]
    by_cases hi : 11 = i
    · subst hi; simp [hb]
    · simp [hi]
  · left
    apply Nat.eq_of_testBit_eq
    intro i
    simp only [Nat.testBit_and, Nat.testBit_two_pow]
    by_cases hi : 11 = i
    · subst hi; simp [hb]
    · simp [hi]

theorem testBit_bitClear (x i : Nat) :
    (bitClear x O_NONBLOCK).testBit i = (x.testBit i && decide (i ≠ 11)) := by
  have h11 : O_NONBLOCK = 2 ^ 11 := by decide
  unfold bitClear
  rw [h11]
  simp only [Nat.testBit_xor, Nat.testBit_and, Nat.testBit_two_pow]
  by_cases hi : 11 = i
  · subst hi; cases x.testBit 11 <;> simp
  · have hi2 : i ≠ 11 := fun e => hi e.symm
    cases x.testBit i <;> simp [hi, hi2]

theorem bitClear_of_blocking (x : Nat) (h : ¬ (x &&& O_NONBLOCK = O_NONBLOCK)) :
    bitClear x O_NONBLOCK = x := by
  have h0 : x &&& O_NONBLOCK = 0 := by
    rcases and_nonblock x with h1 | h1
    · exact absurd h1 h
    · exact h1
  unfold bitClear
  rw [h0]
  simp

theorem bitClear_and (x : Nat) : bitClear x O_NONBLOCK &&& O_NONBLOCK = 0 := by
  have h11 : O_NONBLOCK = 2 ^ 11 := by decide
  apply Nat.eq_of_testBit_eq
  intro i
  rw [Nat.testBit_and, testBit_bitClear, h11, Nat.testBit_two_pow]
  by_cases hi : 11 = i
  · subst hi; simp
  · simp [hi]

/-- What `setBlocking` does on the kernel, call by call. -/
theorem setBlocking_kernel (fd : Int) (k : Kernel) (hfd : isInt fd) :
    setBlocking kernelSys fd k =
      match k.lookup fd with
      | none => (some EBADF, k.note (.getfl fd))
      | some e =>
        match e.getflErr with
        | some err => (some err, k.note (.getfl fd))
        | none =>
          if e.flags &&& O_NONBLOCK = O_NONBLOCK then
            match e.setflErr with
            | some err =>
              (some err, (k.note (.getfl fd)).note (.setfl fd (bitClear e.flags O_NONBLOCK)))
            | none =>
              (none, { fds := Function.update k.fds (fdKey fd) (some e.blocking)
                       pipes := k.pipes
                       events := k.events ++ [.getfl fd, .setfl fd (bitClear e.flags O_NONBLOCK)] })
          else (none, k.note (.getfl fd)) := by
  have hne : F_SETFL ≠ F_GETFL := by decide
  unfold setBlocking kernelSys Kernel.fcntl
  simp only [intOfUintptr_uintptr fd hfd, if_true, hne, if_false, lookup_note]
  cases h : k.lookup fd with
  | none => simp [h]
  | some e =>
    cases h2 : e.getflErr with
    | some err => simp [h, h2]
    | none =>
      by_cases hnb : e.flags &&& O_NONBLOCK = O_NONBLOCK
      · cases h3 : e.setflErr with
        | some err => simp [h, h2, h3, hnb]
        | none => simp [h, h2, h3, hnb, FdEntry.blocking]
      · simp [h, h2, hnb]

theorem lookup_congr (k : Kernel) (fd fd' : Int) (h : fdKey fd' = fdKey fd) :
    k.lookup fd' = k.lookup fd := by
  unfold Kernel.lookup
  rw [h]

theorem lookup_update (k : Kernel) (fd fd' : Int) (v : FdEntry) (ps : Nat → Pipe)
    (evs : List Event) :
    Kernel.lookup ⟨Function.update k.fds (fdKey fd) (some v), ps, evs⟩ fd' =
      if fdKey fd' = fdKey fd then some v else k.lookup fd' := by
  unfold Kernel.lookup
  show Function.update k.fds (fdKey fd) (some v) (fdKey fd') = _
  by_cases h2 : fdKey fd' = fdKey fd
  · rw [h2, Function.update_same, if_pos rfl]
  · rw [Function.update_noteq h2, if_neg h2]

/-- What a successful `setBlocking` has done on the kernel. -/
theorem setBlocking_kernel_ok (fd : Int) (k : Kernel) (hfd : isInt fd)
    (h : (setBlocking kernelSys fd k).1 = none) :
    ∃ e, k.lookup fd = some e ∧
      (∀ fd', (setBlocking kernelSys fd k).2.lookup fd' =
        if fdKey fd' = fdKey fd then some e.blocking else k.lookup fd') ∧
      (setBlocking kernelSys fd k).2.pipes = k.pipes ∧
      (setBlocking kernelSys fd k).2.events = k.events ++
        (if e.flags &&& O_NONBLOCK = O_NONBLOCK
          then [.getfl fd, .setfl fd (bitClear e.flags O_NONBLOCK)] else [.getfl fd]) := by
  rw [setBlocking_kernel fd k hfd] at h ⊢
  cases hl : k.lookup fd with
  | none => simp [hl] at h
  | some e =>
    refine ⟨e, rfl, ?_⟩
    cases h2 : e.getflErr with
    | some err => simp [hl, h2] at h
    | none =>
      by_cases hnb : e.flags &&& O_NONBLOCK = O_NONBLOCK
      · cases h3 : e.setflErr with
        | some err => simp [hl, h2, h3, hnb] at h
        | none =>
          simp only [h2, h3, hnb, if_true]
          refine ⟨fun fd' => lookup_update k fd fd' _ _ _, ?_, ?_⟩ <;> trivial
      · simp only [h2, hnb, if_false]
        refine ⟨fun fd' => ?_, by trivial, by trivial⟩
        have hb : e.blocking = e := by
          unfold FdEntry.blocking
          rw [bitClear_of_blocking e.flags hnb]
        rw [lookup_note, hb]
        split_ifs with h4
        · rw [lookup_congr k fd fd' h4, hl]
        · rfl

theorem usable_lookup (k : Kernel) (fd : Int) (h : k.usable fd = true) :
    ∃ e, k.lookup fd = some e ∧ e.getflErr = none ∧ e.setflErr = none := by
  unfold Kernel.usable at h
  cases hl : k.lookup fd with
  | none => simp [hl] at h
  | some e =>
    simp [hl] at h
    exact ⟨e, rfl, h.1, h.2⟩

theorem statable_of_usable (k : Kernel) (fd : Int) (h : k.usable fd = true) :
    k.statable fd = true := by
  obtain ⟨e, hl, _, _⟩ := usable_lookup k fd h
  simp [Kernel.statable, hl]

theorem statable_note (k : Kernel) (ev : Event) (fd : Int) :
    (k.note ev).statable fd = k.statable fd := rfl

/-- On a descriptor whose mode can be queried and set, `setBlocking` succeeds. -/
theorem setBlocking_kernel_usable (fd : Int) (k : Kernel) (hfd : isInt fd)
    (h : k.usable fd = true) : (setBlocking kernelSys fd k).1 = none := by
  obtain ⟨e, hl, h2, h3⟩ := usable_lookup k fd h
  rw [setBlocking_kernel fd k hfd]
  simp only [hl, h2, h3]
  split_ifs <;> rfl

theorem usable_after_setBlocking (fd fd' : Int) (k : Kernel) (hfd : isInt fd)
    (h : k.usable fd = true) (h' : k.usable fd' = true) :
    (setBlocking kernelSys fd k).2.usable fd' = true := by
  obtain ⟨e, hl, hlook, _, _⟩ :=
    setBlocking_kernel_ok fd k hfd (setBlocking_kernel_usable fd k hfd h)
  obtain ⟨e1, hl1, a2, a3⟩ := usable_lookup k fd h
  rw [hl] at hl1
  cases hl1
  unfold Kernel.usable
  rw [hlook fd']
  split_ifs with h4
  · simp [FdEntry.blocking, a2, a3]
  · exact h'

/-- From the label `gotFDs` on, with both descriptors usable: the client is returned. -/
theorem gotFDs_kernel_usable (jsc : jobserverClient) (k : Kernel)
    (iR : isInt jsc.fdRead) (iW : isInt jsc.fdWrite)
    (hR : k.usable jsc.fdRead = true) (hW : k.usable jsc.fdWrite = true) :
    (gotFDs kernelSys jsc k).1 = .ok (some jsc, none) := by
  have s1 := (checkFD_kernel_fst jsc.fdRead k).2 (statable_of_usable k _ hR)
  have s2 := (checkFD_kernel_fst jsc.fdWrite (k.note (.fstat jsc.fdRead))).2
    (statable_of_usable k _ hW)
  have b1 := setBlocking_kernel_usable jsc.fdRead
    ((k.note (.fstat jsc.fdRead)).note (.fstat jsc.fdWrite)) iR hR
  have b2 := setBlocking_kernel_usable jsc.fdWrite
    (setBlocking kernelSys jsc.fdRead
      ((k.note (.fstat jsc.fdRead)).note (.fstat jsc.fdWrite))).2 iW
    (usable_after_setBlocking jsc.fdRead jsc.fdWrite _ iR hR hW)
  unfold gotFDs
  simp only [checkFD_kernel_snd, s1, s2, b1, b2, ne_eq, not_true_eq_false, if_false]

/-- From the label `gotFDs` on, with a descriptor that is not open or cannot be examined:
the invalid-descriptor error, after `fstat` calls only. -/
theorem gotFDs_kernel_invalid (jsc : jobserverClient) (k : Kernel)
    (h : k.statable jsc.fdRead = false ∨ k.statable jsc.fdWrite = false) :
    gotFDs kernelSys jsc k =
      (.ok (none, some .unableToRead),
        if k.statable jsc.fdRead then (k.note (.fstat jsc.fdRead)).note (.fstat jsc.fdWrite)
        else k.note (.fstat jsc.fdRead)) := by
  unfold gotFDs
  by_cases hR : k.statable jsc.fdRead = true
  · have hW : k.statable jsc.fdWrite = false := by
      rcases h with h | h
      · rw [hR] at h; cases h
      · exact h
    have s1 := (checkFD_kernel_fst jsc.fdRead k).2 hR
    have s2 : (checkFD kernelSys jsc.fdWrite (k.note (.fstat jsc.fdRead))).1 ≠ none := by
      intro hc
      have := (checkFD_kernel_fst jsc.fdWrite (k.note (.fstat jsc.fdRead))).1 hc
      rw [statable_note, hW] at this
      cases this
    simp only [checkFD_kernel_snd, s1, ne_eq, not_true_eq_false, if_false]
    rw [if_pos s2, if_pos hR]
  · have s1 : (checkFD kernelSys jsc.fdRead k).1 ≠ none := by
      intro hc
      exact hR ((checkFD_kernel_fst jsc.fdRead k).1 hc)
    rw [if_pos s1, if_neg hR, checkFD_kernel_snd]

/-- Every call of `setBlocking` on the kernel only adds to the record of calls. -/
theorem setBlocking_kernel_events (fd : Int) (k : Kernel) (hfd : isInt fd) :
    ∃ evs, (setBlocking kernelSys fd k).2.events = k.events ++ evs := by
  rw [setBlocking_kernel fd k hfd]
  cases hl : k.lookup fd with
  | none => exact ⟨[.getfl fd], by simp⟩
  | some e =>
    cases h2 : e.getflErr with
    | some err => exact ⟨[.getfl fd], by simp [h2]⟩
    | none =>
      by_cases hnb : e.flags &&& O_NONBLOCK = O_NONBLOCK
      · cases h3 : e.setflErr with
        | some err =>
          exact ⟨[.getfl fd, .setfl fd (bitClear e.flags O_NONBLOCK)], by simp [h2, h3, hnb]⟩
        | none =>
          exact ⟨[.getfl fd, .setfl fd (bitClear e.flags O_NONBLOCK)], by simp [h2, h3, hnb]⟩
      · exact ⟨[.getfl fd], by simp [h2, hnb]⟩

/-- The first call made from the label `gotFDs` on is `fstat(fdRead)`. -/
theorem gotFDs_kernel_events (jsc : jobserverClient) (k : Kernel)
    (iR : isInt jsc.fdRead) (iW : isInt jsc.fdWrite) :
    ∃ evs, (gotFDs kernelSys jsc k).2.events = k.events ++ .fstat jsc.fdRead :: evs := by
  obtain ⟨l1, h1⟩ := setBlocking_kernel_events jsc.fdRead
    ((k.note (.fstat jsc.fdRead)).note (.fstat jsc.fdWrite)) iR
  obtain ⟨l2, h2⟩ := setBlocking_kernel_events jsc.fdWrite
    (setBlocking kernelSys jsc.fdRead
      ((k.note (.fstat jsc.fdRead)).note (.fstat jsc.fdWrite))).2 iW
  unfold gotFDs
  simp only [checkFD_kernel_snd]
  split_ifs
  · exact ⟨[], by simp⟩
  · exact ⟨[.fstat jsc.fdWrite], by simp⟩
  · exact ⟨.fstat jsc.fdWrite :: l1, by rw [h1]; simp⟩
  · exact ⟨.fstat jsc.fdWrite :: (l1 ++ l2), by rw [h2, h1]; simp⟩
  · exact ⟨.fstat jsc.fdWrite :: (l1 ++ l2), by rw [h2, h1]; simp⟩

/-- The code from the label `gotFDs` on returns the client or one of the three errors of
descriptor validation and configuration. -/
theorem gotFDs_outcome {σ : Type} (sys : Sys σ) (jsc : jobserverClient) (st : σ) :
    (gotFDs sys jsc st).1 = .ok (none, some .unableToRead) ∨
    (gotFDs sys jsc st).1 = .ok (none, some .cannotSetReadBlocking) ∨
    (gotFDs sys jsc st).1 = .ok (none, some .cannotSetWriteBlocking) ∨
    (gotFDs sys jsc st).1 = .ok (some jsc, none) := by
  unfold gotFDs
  simp only
  split_ifs <;> simp

/-- Discovery, once the loop has found both ids, continues at the label `gotFDs`. -/
theorem newJobserverClient_gotFDs {σ : Type} (sys : Sys σ) (makeFlags : GoString) (st : σ)
    (jsc : jobserverClient) (hne : makeFlags ≠ [])
    (h : scanArgs (Split makeFlags 32) = .gotoGotFDs jsc) :
    newJobserverClient sys makeFlags st = gotFDs sys jsc st := by
  unfold newJobserverClient
  rw [if_neg hne, h]

theorem parsePair_ok (r w : GoString) (R W : Int) (hr : Atoi r = .ok R) (hw : Atoi w = .ok W) :
    parsePair r w = .gotoGotFDs ⟨R, W⟩ := by
  unfold parsePair
  rw [hr, hw]

/-! ## The properties of the specification -/

/-- C1. For every `$MAKEFLAGS` whose first token with a recognized flag is
`--jobserver-auth=R,W` or `--jobserver-fds=R,W`, with `R` and `W` the decimal renderings
of values of type `int`, and for every kernel state in which `R` and `W` are open and their
mode can be queried and set, `newJobserverClient` returns the client with `fdRead = R` and
`fdWrite = W` and a nil error, whatever the spelling of the flag and whatever the tokens
before the match (`pre`) and after it (`post`). -/
theorem newJobserverClient_extracts_fds (makeFlags : GoString) (pre post : List GoString)
    (flag : GoString) (R W : Int) (k : Kernel)
    (hflag : flag = jobserverAuth ∨ flag = jobserverFds)
    (hsplit : Split makeFlags 32 = pre ++ (flag ++ Itoa R ++ 44 :: Itoa W) :: post)
    (hpre : ∀ t ∈ pre, recognized t = false)
    (iR : isInt R) (iW : isInt W)
    (hR : k.usable R = true) (hW : k.usable W = true) :
    (newJobserverClient kernelSys makeFlags k).1 = .ok (some ⟨R, W⟩, none) := by
  obtain ⟨hne, hscan⟩ :=
    scan_first_flag makeFlags pre post flag (Itoa R) (Itoa W) hflag hsplit hpre
      (comma_not_mem_Itoa R)
  rw [parsePair_ok _ _ R W (Atoi_Itoa R iR) (Atoi_Itoa W iW)] at hscan
  rw [newJobserverClient_gotFDs kernelSys makeFlags k ⟨R, W⟩ hne hscan]
  exact gotFDs_kernel_usable ⟨R, W⟩ k iR iW hR hW

theorem newJobserverClient_extracts_fds_witness :
    (newJobserverClient kernelSys
      (str "-j8 --jobserver-fds=" ++ Itoa 3 ++ 44 :: Itoa 4 ++ str " --jobserver-auth=5,6")
      (makeKernel [43])).1 = .ok (some ⟨3, 4⟩, none) :=
  newJobserverClient_extracts_fds _ [str "-j8"] [str "--jobserver-auth=5,6"] jobserverFds 3 4
    (makeKernel [43]) (Or.inr rfl) (by decide) (by decide) (by decide) (by decide)
    (by decide) (by decide)

/-- C2. For every `$MAKEFLAGS` none of whose space-separated tokens begins with
`--jobserver-auth=` or `--jobserver-fds=`, and so for every one that does not contain the
text of either flag at all, `newJobserverClient` returns (nil, nil) if and
only if the string is empty, and otherwise returns no client and the error "cannot parse
--jobserver-auth from $MAKEFLAGS"; the process state it returns is the one it was given, for
every implementation of the system calls, so no descriptor is examined or modified. -/
theorem newJobserverClient_no_flag {σ : Type} (sys : Sys σ) (makeFlags : GoString) (st : σ)
    (h : (∀ t ∈ Split makeFlags 32, recognized t = false) ∨
      (¬ jobserverAuth <:+: makeFlags ∧ ¬ jobserverFds <:+: makeFlags)) :
    ((newJobserverClient sys makeFlags st).1 = .ok (none, none) ↔ makeFlags = []) ∧
    (makeFlags ≠ [] →
      (newJobserverClient sys makeFlags st).1 =
        .ok (none, some (.cannotParseMakeflags makeFlags))) ∧
    (newJobserverClient sys makeFlags st).2 = st := by
  have hs := scanArgs_fallThrough _
    (h.elim id (recognized_false_of_no_flag_text makeFlags))
  unfold newJobserverClient
  by_cases he : makeFlags = []
  · simp [he]
  · simp [he, hs]

theorem newJobserverClient_no_flag_witness :
    ((newJobserverClient kernelSys (str "-j8 -k") (makeKernel [43])).1 = .ok (none, none) ↔
      str "-j8 -k" = []) ∧
    (str "-j8 -k" ≠ [] →
      (newJobserverClient kernelSys (str "-j8 -k") (makeKernel [43])).1 =
        .ok (none, some (.cannotParseMakeflags (str "-j8 -k")))) ∧
    (newJobserverClient kernelSys (str "-j8 -k") (makeKernel [43])).2 = makeKernel [43] :=
  newJobserverClient_no_flag kernelSys (str "-j8 -k") (makeKernel [43]) (Or.inl (by decide))

/-- C3, evaluated on the code: with `MAKEFLAGS=--jobserver-auth=3` the value `3` has no
comma, `strings.SplitN` returns the single piece `3`, and after the read id is parsed the
index expression `fds[1]` panics with "index out of range [1] with length 1". -/
theorem newJobserverClient_panics_without_comma :
    (newJobserverClient kernelSys (str "--jobserver-auth=3") (makeKernel [43])).1 =
      .error (.indexOutOfRange 1 1) ∧
    SplitN (str "3") 44 2 = [str "3"] := by
  decide

/-- C4. For every `$MAKEFLAGS` whose first token with a recognized flag has the value
`r,w` (`r` the text before the first comma): if `r` is not a valid integer, the result is no
client and the error "cannot parse jobserver read fd", whatever `w` is; if `r` is a valid
integer and `w` is not (`w` may contain further commas), the result is no client and the
error "cannot parse jobserver write fd".  In both cases the process state is returned as
it was given, for every implementation of the system calls. -/
theorem newJobserverClient_parse_error {σ : Type} (sys : Sys σ) (makeFlags : GoString) (st : σ)
    (pre post : List GoString) (flag r w : GoString)
    (hflag : flag = jobserverAuth ∨ flag = jobserverFds)
    (hsplit : Split makeFlags 32 = pre ++ (flag ++ r ++ 44 :: w) :: post)
    (hpre : ∀ t ∈ pre, recognized t = false) (hr : 44 ∉ r) :
    (∀ e, Atoi r = .error e →
      newJobserverClient sys makeFlags st = (.ok (none, some (.cannotParseReadFd e)), st)) ∧
    (∀ n e, Atoi r = .ok n → Atoi w = .error e →
      newJobserverClient sys makeFlags st = (.ok (none, some (.cannotParseWriteFd e)), st)) := by
  obtain ⟨hne, hscan⟩ := scan_first_flag makeFlags pre post flag r w hflag hsplit hpre hr
  unfold newJobserverClient
  rw [if_neg hne, hscan]
  constructor
  · intro e he
    simp [parsePair, he]
  · intro n e hn he
    simp [parsePair, hn, he]

theorem newJobserverClient_parse_error_witness :
    newJobserverClient kernelSys (str "-j8 --jobserver-auth=x,4") (makeKernel [43]) =
      (.ok (none, some (.cannotParseReadFd .invalid)), makeKernel [43]) ∧
    newJobserverClient kernelSys (str "-j8 --jobserver-auth=3,4,5") (makeKernel [43]) =
      (.ok (none, some (.cannotParseWriteFd .invalid)), makeKernel [43]) :=
  ⟨(newJobserverClient_parse_error kernelSys (str "-j8 --jobserver-auth=x,4") (makeKernel [43])
      [str "-j8"] [] jobserverAuth (str "x") (str "4") (Or.inl rfl) (by decide) (by decide)
      (by decide)).1 .invalid (by decide),
   (newJobserverClient_parse_error kernelSys (str "-j8 --jobserver-auth=3,4,5")
      (makeKernel [43]) [str "-j8"] [] jobserverAuth (str "3") (str "4,5") (Or.inl rfl)
      (by decide) (by decide) (by decide)).2 3 .invalid (by decide) (by decide)⟩

/-- C5 as stated fails: with `MAKEFLAGS=--jobserver-auth=-1,4` the read id `-1` is accepted
by `Atoi` as the integer -1, no parse error is returned, and discovery goes on to
descriptor validation (`fstat(-1)`), which returns the invalid-descriptor error. -/
theorem negative_id_is_parsed :
    Atoi (str "-1") = .ok (-1) ∧
    (newJobserverClient kernelSys (str "--jobserver-auth=-1,4") (makeKernel [43])).1 =
      .ok (none, some .unableToRead) ∧
    (∀ e, (newJobserverClient kernelSys (str "--jobserver-auth=-1,4") (makeKernel [43])).1 ≠
      .ok (none, some (.cannotParseReadFd e))) ∧
    (newJobserverClient kernelSys (str "--jobserver-auth=-1,4") (makeKernel [43])).2.events =
      [.fstat (-1)] := by
  refine ⟨by decide, by decide, ?_, by decide⟩
  intro e
  have h : (newJobserverClient kernelSys (str "--jobserver-auth=-1,4") (makeKernel [43])).1 =
      .ok (none, some .unableToRead) := by decide
  rw [h]
  simp

/-- Only the low 32 bits of an id reach the kernel: with `MAKEFLAGS=--jobserver-auth=`
`-4294967293,4` the negative read id names descriptor 3, validation succeeds, and the client
is returned with descriptor 3 set to blocking mode. -/
theorem negative_id_naming_open_descriptor :
    (newJobserverClient kernelSys (str "--jobserver-auth=-4294967293,4") (makeKernel [43])).1 =
      .ok (some ⟨-4294967293, 4⟩, none) ∧
    ((newJobserverClient kernelSys (str "--jobserver-auth=-4294967293,4")
      (makeKernel [43])).2.lookup 3) = some (plainFd (.pipeRead 0) 0) := by
  decide

/-- C5, amended. The ids are parsed as signed integers: for every `$MAKEFLAGS` whose first
token with a recognized flag has the value `R,W`, with `R` and `W` the decimal renderings of
values of type `int`, negative ones included (for example -1), both segments are accepted
as descriptor ids, no parse error is returned, and discovery goes on to descriptor
validation with `fdRead = R` and `fdWrite = W`: for every implementation of the system calls
the result is that of the code from the label `gotFDs` on, which returns the
invalid-descriptor error if `fstat(R)` fails, and on the kernel the first call made is
`fstat(R)`. -/
theorem newJobserverClient_negative_id {σ : Type} (sys : Sys σ) (makeFlags : GoString)
    (st : σ) (pre post : List GoString) (flag : GoString) (R W : Int)
    (hflag : flag = jobserverAuth ∨ flag = jobserverFds)
    (hsplit : Split makeFlags 32 = pre ++ (flag ++ Itoa R ++ 44 :: Itoa W) :: post)
    (hpre : ∀ t ∈ pre, recognized t = false)
    (iR : isInt R) (iW : isInt W) :
    Atoi (Itoa R) = .ok R ∧ Atoi (Itoa W) = .ok W ∧
    newJobserverClient sys makeFlags st = gotFDs sys ⟨R, W⟩ st ∧
    (∀ e, (newJobserverClient sys makeFlags st).1 ≠ .ok (none, some (.cannotParseReadFd e)) ∧
      (newJobserverClient sys makeFlags st).1 ≠ .ok (none, some (.cannotParseWriteFd e))) ∧
    ((sys.Fstat R st).1 ≠ none →
      newJobserverClient sys makeFlags st =
        (.ok (none, some .unableToRead), (sys.Fstat R st).2)) ∧
    ∀ k : Kernel, ∃ evs,
      (newJobserverClient kernelSys makeFlags k).2.events = k.events ++ .fstat R :: evs := by
  obtain ⟨hne, hscan⟩ :=
    scan_first_flag makeFlags pre post flag (Itoa R) (Itoa W) hflag hsplit hpre
      (comma_not_mem_Itoa R)
  rw [parsePair_ok _ _ R W (Atoi_Itoa R iR) (Atoi_Itoa W iW)] at hscan
  refine ⟨Atoi_Itoa R iR, Atoi_Itoa W iW, ?_, ?_, ?_, ?_⟩
  · exact newJobserverClient_gotFDs sys makeFlags st ⟨R, W⟩ hne hscan
  · intro e
    rw [newJobserverClient_gotFDs sys makeFlags st ⟨R, W⟩ hne hscan]
    rcases gotFDs_outcome sys ⟨R, W⟩ st with h | h | h | h <;> rw [h] <;> simp
  · intro hfail
    rw [newJobserverClient_gotFDs sys makeFlags st ⟨R, W⟩ hne hscan]
    unfold gotFDs checkFD
    simp only
    rw [if_pos hfail]
  · intro k
    rw [newJobserverClient_gotFDs kernelSys makeFlags k ⟨R, W⟩ hne hscan]
    exact gotFDs_kernel_events ⟨R, W⟩ k iR iW

theorem newJobserverClient_negative_id_witness :
    newJobserverClient kernelSys (str "-j8 --jobserver-auth=" ++ Itoa (-1) ++ 44 :: Itoa 4)
      (makeKernel [43]) =
      (.ok (none, some .unableToRead), (kernelSys.Fstat (-1) (makeKernel [43])).2) :=
  (newJobserverClient_negative_id kernelSys _ (makeKernel [43]) [str "-j8"] [] jobserverAuth
    (-1) 4 (Or.inl rfl) (by decide) (by decide) (by decide) (by decide)).2.2.2.2.1 (by decide)

/-- C6. For every `$MAKEFLAGS` whose first token with a recognized flag parses to the ids
`R` and `W`, if `R` or `W` is not an open descriptor on which `fstat` succeeds, the result is
no client and the invalid-descriptor error (the message that hints at adding `+`), and the
only calls made are `fstat` calls: the descriptor table, with the flags of every
descriptor, and the pipes are the same after the call as before. -/
theorem newJobserverClient_invalid_descriptor (makeFlags : GoString)
    (pre post : List GoString) (flag r w : GoString) (R W : Int) (k : Kernel)
    (hflag : flag = jobserverAuth ∨ flag = jobserverFds)
    (hsplit : Split makeFlags 32 = pre ++ (flag ++ r ++ 44 :: w) :: post)
    (hpre : ∀ t ∈ pre, recognized t = false) (hr : 44 ∉ r)
    (hR : Atoi r = .ok R) (hW : Atoi w = .ok W)
    (hbad : k.statable R = false ∨ k.statable W = false) :
    (newJobserverClient kernelSys makeFlags k).1 = .ok (none, some .unableToRead) ∧
    (newJobserverClient kernelSys makeFlags k).2.fds = k.fds ∧
    (newJobserverClient kernelSys makeFlags k).2.pipes = k.pipes ∧
    ∃ evs, (newJobserverClient kernelSys makeFlags k).2.events = k.events ++ evs ∧
      ∀ ev ∈ evs, ∃ fd, ev = .fstat fd := by
  obtain ⟨hne, hscan⟩ := scan_first_flag makeFlags pre post flag r w hflag hsplit hpre hr
  rw [parsePair_ok _ _ R W hR hW] at hscan
  rw [newJobserverClient_gotFDs kernelSys makeFlags k ⟨R, W⟩ hne hscan]
  rw [gotFDs_kernel_invalid ⟨R, W⟩ k hbad]
  refine ⟨rfl, ?_, ?_, ?_⟩
  · split_ifs <;> rfl
  · split_ifs <;> rfl
  · split_ifs
    · refine ⟨[.fstat R, .fstat W], by simp, ?_⟩
      intro ev hev
      simp at hev
      rcases hev with h | h
      · exact ⟨R, h⟩
      · exact ⟨W, h⟩
    · refine ⟨[.fstat R], by simp, ?_⟩
      intro ev hev
      simp at hev
      exact ⟨R, hev⟩

theorem newJobserverClient_invalid_descriptor_witness :
    (newJobserverClient kernelSys (str "-j8 --jobserver-auth=3,7") (makeKernel [43])).1 =
      .ok (none, some .unableToRead) ∧
    (newJobserverClient kernelSys (str "-j8 --jobserver-auth=3,7") (makeKernel [43])).2.fds =
      (makeKernel [43]).fds ∧
    (newJobserverClient kernelSys (str "-j8 --jobserver-auth=3,7") (makeKernel [43])).2.pipes =
      (makeKernel [43]).pipes ∧
    ∃ evs, (newJobserverClient kernelSys (str "-j8 --jobserver-auth=3,7")
        (makeKernel [43])).2.events = (makeKernel [43]).events ++ evs ∧
      ∀ ev ∈ evs, ∃ fd, ev = .fstat fd :=
  newJobserverClient_invalid_descriptor (str "-j8 --jobserver-auth=3,7") [str "-j8"] []
    jobserverAuth (str "3") (str "7") 3 7 (makeKernel [43]) (Or.inl rfl) (by decide)
    (by decide) (by decide) (by decide) (by decide) (by decide)

theorem parseArg_isInt (arg : GoString) (jsc : jobserverClient)
    (h : parseArg arg = .gotoGotFDs jsc) : isInt jsc.fdRead ∧ isInt jsc.fdWrite := by
  unfold parseArg at h
  split at h
  · cases h
  · simp only at h
    split at h
    · cases h
    · split at h
      · cases h
      · rename_i f0 fdRead h0
        split at h
        · cases h
        · split at h
          · cases h
          · rename_i f1 fdWrite h1
            cases h
            exact ⟨Atoi_isInt _ _ h0, Atoi_isInt _ _ h1⟩

theorem scanArgs_isInt (l : List GoString) (jsc : jobserverClient)
    (h : scanArgs l = .gotoGotFDs jsc) : isInt jsc.fdRead ∧ isInt jsc.fdWrite := by
  induction l with
  | nil => cases h
  | cons t ts ih =>
    unfold scanArgs at h
    split_ifs at h
    · exact parseArg_isInt t jsc h
    · exact ih h

/-- When discovery returns a client, the loop found its ids and the code from the label
`gotFDs` on returned it. -/
theorem newJobserverClient_client {σ : Type} (sys : Sys σ) (makeFlags : GoString) (st : σ)
    (c : jobserverClient) (err : Option JsError)
    (h : (newJobserverClient sys makeFlags st).1 = .ok (some c, err)) :
    ∃ jsc, scanArgs (Split makeFlags 32) = .gotoGotFDs jsc ∧
      newJobserverClient sys makeFlags st = gotFDs sys jsc st := by
  unfold newJobserverClient at h ⊢
  split_ifs at h ⊢ with he
  · simp at h
  · split at h
    · simp at h
    · simp at h
    · simp at h
    · rename_i jsc hs
      exact ⟨jsc, hs, rfl⟩

/-- When the code from the label `gotFDs` on returns a client on the kernel, it is `jsc`,
both `setBlocking` calls succeeded, and the final state is the one after the second. -/
theorem gotFDs_kernel_client (jsc c : jobserverClient) (err : Option JsError) (k : Kernel)
    (h : (gotFDs kernelSys jsc k).1 = .ok (some c, err)) :
    c = jsc ∧
    (setBlocking kernelSys jsc.fdRead
      ((k.note (.fstat jsc.fdRead)).note (.fstat jsc.fdWrite))).1 = none ∧
    (setBlocking kernelSys jsc.fdWrite
      (setBlocking kernelSys jsc.fdRead
        ((k.note (.fstat jsc.fdRead)).note (.fstat jsc.fdWrite))).2).1 = none ∧
    (gotFDs kernelSys jsc k).2 =
      (setBlocking kernelSys jsc.fdWrite
        (setBlocking kernelSys jsc.fdRead
          ((k.note (.fstat jsc.fdRead)).note (.fstat jsc.fdWrite))).2).2 := by
  unfold gotFDs at h ⊢
  simp only [checkFD_kernel_snd] at h ⊢
  split_ifs at h ⊢ with h1 h2 h3 h4
  · simp at h
  · simp at h
  · simp at h
  · simp at h
  · simp at h
    exact ⟨h.1.symm, by simpa using h3, by simpa using h4, rfl⟩

theorem blocking_blocking (e : FdEntry) : e.blocking.blocking = e.blocking := by
  have h : ¬ (bitClear e.flags O_NONBLOCK &&& O_NONBLOCK = O_NONBLOCK) := by
    rw [bitClear_and]; decide
  unfold FdEntry.blocking
  simp only
  rw [bitClear_of_blocking _ h]

theorem blocking_flags (e : FdEntry) :
    e.blocking.flags &&& O_NONBLOCK = 0 ∧
    ∀ i, i ≠ 11 → e.blocking.flags.testBit i = e.flags.testBit i := by
  refine ⟨bitClear_and e.flags, fun i hi => ?_⟩
  show (bitClear e.flags O_NONBLOCK).testBit i = _
  rw [testBit_bitClear]
  simp [hi]

/-- C7. Whenever `newJobserverClient` returns a client, each of its two descriptors was
open before the call and is open after it with the `O_NONBLOCK` bit (bit 11) of its status
flags clear, whatever it was before, and with every other bit of the flags as before; and
for a descriptor whose `O_NONBLOCK` bit was already clear the call made no `F_SETFL`. -/
theorem newJobserverClient_blocking (makeFlags : GoString) (k : Kernel)
    (c : jobserverClient) (err : Option JsError)
    (h : (newJobserverClient kernelSys makeFlags k).1 = .ok (some c, err)) :
    ∃ evs, (newJobserverClient kernelSys makeFlags k).2.events = k.events ++ evs ∧
      ∀ fd, fd = c.fdRead ∨ fd = c.fdWrite →
        ∃ e e', k.lookup fd = some e ∧
          (newJobserverClient kernelSys makeFlags k).2.lookup fd = some e' ∧
          e'.flags &&& O_NONBLOCK = 0 ∧
          (∀ i, i ≠ 11 → e'.flags.testBit i = e.flags.testBit i) ∧
          (e.flags &&& O_NONBLOCK = 0 → ∀ a, Event.setfl fd a ∉ evs) := by
  obtain ⟨jsc, hscan, hrun⟩ := newJobserverClient_client kernelSys makeFlags k c err h
  obtain ⟨iR, iW⟩ := scanArgs_isInt _ jsc hscan
  rw [hrun] at h ⊢
  obtain ⟨hc, b1, b2, hfin⟩ := gotFDs_kernel_client jsc c err k h
  subst hc
  rw [hfin]
  obtain ⟨eR, hlR, look1, _, ev1⟩ := setBlocking_kernel_ok _ _ iR b1
  obtain ⟨eW, hlW, look2, _, ev2⟩ := setBlocking_kernel_ok _ _ iW b2
  simp only [lookup_note] at hlR look1
  have hW1 := look1 c.fdWrite
  rw [hlW] at hW1
  rw [ev2, ev1]
  simp only [events_note, List.append_assoc]
  refine ⟨_, rfl, ?_⟩
  by_cases hRW : fdKey c.fdWrite = fdKey c.fdRead
  · -- both numbers name one descriptor
    rw [if_pos hRW] at hW1
    have heW : eW = eR.blocking := by cases hW1; rfl
    have hnb : ¬ (eW.flags &&& O_NONBLOCK = O_NONBLOCK) := by
      rw [heW, (blocking_flags eR).1]; decide
    intro fd hfd
    have hfdR : fdKey fd = fdKey c.fdRead := by rcases hfd with h1 | h1 <;> simp [h1, hRW]
    have hfdW : fdKey fd = fdKey c.fdWrite := by rw [hfdR, hRW]
    refine ⟨eR, eR.blocking, by rw [lookup_congr k c.fdRead fd hfdR, hlR], ?_,
      (blocking_flags eR).1, (blocking_flags eR).2, ?_⟩
    · rw [look2 fd, if_pos hfdW, heW, blocking_blocking]
    · intro h0 a
      have hnbR : ¬ (eR.flags &&& O_NONBLOCK = O_NONBLOCK) := by rw [h0]; decide
      simp [hnb, hnbR]
  · rw [if_neg hRW] at hW1
    have hneRW : c.fdWrite ≠ c.fdRead := fun e => hRW (by rw [e])
    intro fd hfd
    rcases hfd with hfd | hfd
    · -- the read descriptor
      have hkey : fdKey fd ≠ fdKey c.fdWrite := by rw [hfd]; exact fun e => hRW e.symm
      have hne : fd ≠ c.fdWrite := by rw [hfd]; exact fun e => hneRW e.symm
      refine ⟨eR, eR.blocking, by rw [hfd, hlR], ?_, (blocking_flags eR).1,
        (blocking_flags eR).2, ?_⟩
      · rw [look2 fd, if_neg hkey, look1 fd, hfd, if_pos rfl]
      · intro h0 a
        have hnbR : ¬ (eR.flags &&& O_NONBLOCK = O_NONBLOCK) := by rw [h0]; decide
        simp only [hnbR, if_false]
        split_ifs <;> simp [hne]
    · -- the write descriptor
      have hne : fd ≠ c.fdRead := by rw [hfd]; exact hneRW
      refine ⟨eW, eW.blocking, by rw [hfd, hW1], ?_, (blocking_flags eW).1,
        (blocking_flags eW).2, ?_⟩
      · rw [look2 fd, hfd, if_pos rfl]
      · intro h0 a
        have hnbW : ¬ (eW.flags &&& O_NONBLOCK = O_NONBLOCK) := by rw [h0]; decide
        simp only [hnbW, if_false]
        split_ifs <;> simp [hne]

theorem newJobserverClient_blocking_witness :
    ∃ evs, (newJobserverClient kernelSys (str "-j8 --jobserver-auth=3,4")
        (makeKernel [43])).2.events = (makeKernel [43]).events ++ evs ∧
      ∀ fd, fd = (⟨3, 4⟩ : jobserverClient).fdRead ∨ fd = (⟨3, 4⟩ : jobserverClient).fdWrite →
        ∃ e e', (makeKernel [43]).lookup fd = some e ∧
          (newJobserverClient kernelSys (str "-j8 --jobserver-auth=3,4")
            (makeKernel [43])).2.lookup fd = some e' ∧
          e'.flags &&& O_NONBLOCK = 0 ∧
          (∀ i, i ≠ 11 → e'.flags.testBit i = e.flags.testBit i) ∧
          (e.flags &&& O_NONBLOCK = 0 → ∀ a, Event.setfl fd a ∉ evs) :=
  newJobserverClient_blocking (str "-j8 --jobserver-auth=3,4") (makeKernel [43]) ⟨3, 4⟩ none
    (by decide)

/-- C8. For every client, every implementation of the system calls and every state,
`Acquire` returns a token if and only if the one-byte read on `fdRead` returns with no error
and the count 1; then the token holds the byte that was read and the client `Acquire` was
called on, and the error is nil.  For every other result of the read (an error, a count of
zero, any other count) `Acquire` returns no token and an error. -/
theorem Acquire_token_iff {σ : Type} (sys : Sys σ) (jsc : jobserverClient) (st : σ) :
    ((∃ tok err, (Acquire sys jsc st).1 = some (some tok, err)) ↔
      ∃ res, (sys.Read jsc.fdRead 0
          (sys.Printf "attempting to acquire jobserver token" st)).1 = some res ∧
        res.err = none ∧ res.rv = 1) ∧
    ∀ res, (sys.Read jsc.fdRead 0
          (sys.Printf "attempting to acquire jobserver token" st)).1 = some res →
      (res.err = none ∧ res.rv = 1 →
        (Acquire sys jsc st).1 = some (some ⟨jsc, res.byte⟩, none)) ∧
      (¬ (res.err = none ∧ res.rv = 1) →
        ∃ e, (Acquire sys jsc st).1 = some (none, some e)) := by
  have key : ∀ res, (sys.Read jsc.fdRead 0
          (sys.Printf "attempting to acquire jobserver token" st)).1 = some res →
      (res.err = none ∧ res.rv = 1 →
        (Acquire sys jsc st).1 = some (some ⟨jsc, res.byte⟩, none)) ∧
      (¬ (res.err = none ∧ res.rv = 1) →
        ∃ e, (Acquire sys jsc st).1 = some (none, some e)) := by
    intro res hres
    unfold Acquire
    simp only [hres]
    constructor
    · rintro ⟨he, hrv⟩
      simp [he, hrv]
    · intro hn
      cases he : res.err with
      | some e => exact ⟨_, rfl⟩
      | none =>
        have hrv : res.rv ≠ 1 := fun h1 => hn ⟨he, h1⟩
        exact ⟨.unexpectedReadCount res.rv, by simp [hrv]⟩
  refine ⟨⟨?_, ?_⟩, key⟩
  · rintro ⟨tok, err, ht⟩
    cases hr : (sys.Read jsc.fdRead 0
        (sys.Printf "attempting to acquire jobserver token" st)).1 with
    | none =>
      unfold Acquire at ht
      simp [hr] at ht
    | some res =>
      refine ⟨res, rfl, ?_⟩
      by_contra hn
      obtain ⟨e, he⟩ := (key res hr).2 hn
      rw [he] at ht
      simp at ht
  · rintro ⟨res, hr, he, hrv⟩
    exact ⟨_, _, (key res hr).1 ⟨he, hrv⟩⟩

theorem Acquire_token_iff_witness :
    (Acquire kernelSys ⟨3, 4⟩ (makeKernel [43])).1 = some (some ⟨⟨3, 4⟩, 43⟩, none) ∧
    ∃ e, (Acquire kernelSys ⟨0, 4⟩ (makeKernel [43])).1 = some (none, some e) :=
  ⟨((Acquire_token_iff kernelSys ⟨3, 4⟩ (makeKernel [43])).2 ⟨1, none, 43⟩ (by decide)).1
      (by decide),
   ((Acquire_token_iff kernelSys ⟨0, 4⟩ (makeKernel [43])).2 ⟨0, none, 0⟩ (by decide)).2
      (by decide)⟩

/-- C10. For every implementation of the system calls and every state, `Release` returns a
nil error if and only if the token is nil or the one-byte write to the `fdWrite` of the
token's client returns with no error and the count 1.  For a nil token no call is made and
the state is returned as it was given; a write that returns an error or any count other
than 1 yields an error. -/
theorem Release_success_iff {σ : Type} (sys : Sys σ) (st : σ) :
    (∀ jst, (Release sys jst st).1 = some none ↔
      jst = none ∨ ∃ tok res, jst = some tok ∧
        (sys.Write tok.client.fdWrite tok.token
          (sys.Printf "releasing jobserver token" st)).1 = some res ∧
        res.err = none ∧ res.rv = 1) ∧
    Release sys none st = (some none, st) ∧
    ∀ tok res, (sys.Write tok.client.fdWrite tok.token
          (sys.Printf "releasing jobserver token" st)).1 = some res →
      ¬ (res.err = none ∧ res.rv = 1) →
      ∃ e, (Release sys (some tok) st).1 = some (some e) := by
  have key : ∀ tok res, (sys.Write tok.client.fdWrite tok.token
          (sys.Printf "releasing jobserver token" st)).1 = some res →
      ¬ (res.err = none ∧ res.rv = 1) →
      ∃ e, (Release sys (some tok) st).1 = some (some e) := by
    intro tok res hres hn
    unfold Release
    simp only [hres]
    cases he : res.err with
    | some e => exact ⟨_, rfl⟩
    | none =>
      have hrv : res.rv ≠ 1 := fun h1 => hn ⟨he, h1⟩
      exact ⟨.unexpectedWriteCount res.rv, by simp [hrv]⟩
  refine ⟨fun jst => ⟨?_, ?_⟩, rfl, key⟩
  · intro h
    cases jst with
    | none => exact Or.inl rfl
    | some tok =>
      right
      cases hw : (sys.Write tok.client.fdWrite tok.token
          (sys.Printf "releasing jobserver token" st)).1 with
      | none =>
        unfold Release at h
        simp [hw] at h
      | some res =>
        refine ⟨tok, res, rfl, hw, ?_⟩
        by_contra hn
        obtain ⟨e, he⟩ := key tok res hw hn
        rw [he] at h
        simp at h
  · rintro (rfl | ⟨tok, res, rfl, hw, he, hrv⟩)
    · rfl
    · unfold Release
      simp [hw, he, hrv]

theorem Release_success_iff_witness :
    ∃ e, (Release kernelSys (some ⟨⟨3, 7⟩, 43⟩) (makeKernel [])).1 = some (some e) :=
  (Release_success_iff kernelSys (makeKernel [])).2.2 ⟨⟨3, 7⟩, 43⟩ ⟨-1, some EBADF⟩
    (by decide) (by decide)

theorem read_pipe (k : Kernel) (fd : Int) (e : FdEntry) (p b : Nat) (bs : List Nat) (b0 : Nat)
    (hl : k.lookup fd = some e) (hk : e.kind = .pipeRead p) (hbuf : (k.pipes p).buf = b :: bs) :
    Kernel.read fd b0 k =
      (some ⟨1, none, b⟩,
        { (k.note (.read fd)) with
          pipes := Function.update k.pipes p { k.pipes p with buf := bs } }) := by
  unfold Kernel.read
  simp only [hl]
  cases e with
  | mk kind flags g t =>
    simp only at hk
    subst hk
    simp only [hbuf]

theorem write_pipe (k : Kernel) (fd : Int) (e : FdEntry) (p b : Nat)
    (hl : k.lookup fd = some e) (hk : e.kind = .pipeWrite p)
    (hroom : (k.pipes p).buf.length < (k.pipes p).cap) :
    Kernel.write fd b k =
      (some ⟨1, none⟩,
        { (k.note (.write fd b)) with
          pipes := Function.update k.pipes p
            { k.pipes p with buf := (k.pipes p).buf ++ [b] } }) := by
  unfold Kernel.write
  simp only [hl]
  cases e with
  | mk kind flags g t =>
    simp only at hk
    subst hk
    simp only [hroom, if_true]

/-- C9. For every client whose `fdRead` and `fdWrite` are the read end and the write end of
one pipe `p` that holds at least one byte (`b` the oldest) and has room for one more,
`Acquire` returns a token for this client with the byte `b`, and `Release` of that token
returns a nil error; the calls made by the pair are one read on `fdRead` and one write, of
the byte `b`, on `fdWrite` (and four log calls); afterwards the pipe holds the bytes it held
before with `b` moved to the end, as many bytes as before. -/
theorem Acquire_Release_roundtrip (jsc : jobserverClient) (k : Kernel) (eR eW : FdEntry)
    (p b : Nat) (bs : List Nat)
    (hR : k.lookup jsc.fdRead = some eR) (hkR : eR.kind = .pipeRead p)
    (hW : k.lookup jsc.fdWrite = some eW) (hkW : eW.kind = .pipeWrite p)
    (hbuf : (k.pipes p).buf = b :: bs)
    (hroom : (k.pipes p).buf.length < (k.pipes p).cap) :
    ∃ tok, (Acquire kernelSys jsc k).1 = some (some tok, none) ∧
      tok.token = b ∧ tok.client = jsc ∧
      (Release kernelSys (some tok) (Acquire kernelSys jsc k).2).1 = some none ∧
      (Release kernelSys (some tok) (Acquire kernelSys jsc k).2).2.events =
        k.events ++ [.log "attempting to acquire jobserver token", .read jsc.fdRead,
          .log "acquired jobserver token", .log "releasing jobserver token",
          .write jsc.fdWrite b, .log "released jobserver token"] ∧
      ((Release kernelSys (some tok) (Acquire kernelSys jsc k).2).2.pipes p).buf = bs ++ [b] ∧
      ((Release kernelSys (some tok) (Acquire kernelSys jsc k).2).2.pipes p).buf.length =
        (k.pipes p).buf.length := by
  have hlen : bs.length < (k.pipes p).cap := by
    rw [hbuf] at hroom
    simp at hroom
    omega
  have hr := read_pipe (k.note (.log "attempting to acquire jobserver token")) jsc.fdRead eR
    p b bs 0 hR hkR hbuf
  have hA : Acquire kernelSys jsc k =
      (some (some ⟨jsc, b⟩, none),
        { fds := k.fds
          pipes := Function.update k.pipes p { k.pipes p with buf := bs }
          events := k.events ++ [.log "attempting to acquire jobserver token",
            .read jsc.fdRead, .log "acquired jobserver token"] }) := by
    unfold Acquire
    simp only [kernelSys, hr]
    simp [Kernel.note]
  refine ⟨⟨jsc, b⟩, by rw [hA], rfl, rfl, ?_⟩
  rw [hA]
  have hw := write_pipe
    (Kernel.note { fds := k.fds
                   pipes := Function.update k.pipes p { k.pipes p with buf := bs }
                   events := k.events ++ [.log "attempting to acquire jobserver token",
                     .read jsc.fdRead, .log "acquired jobserver token"] }
      (.log "releasing jobserver token")) jsc.fdWrite eW p b hW hkW
      (by simpa using hlen)
  unfold Release
  simp only [kernelSys, hw]
  simp [Kernel.note, hbuf]

theorem Acquire_Release_roundtrip_witness :
    ∃ tok, (Acquire kernelSys ⟨3, 4⟩ (makeKernel [43, 44])).1 = some (some tok, none) ∧
      tok.token = 43 ∧ tok.client = ⟨3, 4⟩ ∧
      (Release kernelSys (some tok) (Acquire kernelSys ⟨3, 4⟩ (makeKernel [43, 44])).2).1 =
        some none ∧
      (Release kernelSys (some tok)
          (Acquire kernelSys ⟨3, 4⟩ (makeKernel [43, 44])).2).2.events =
        (makeKernel [43, 44]).events ++ [.log "attempting to acquire jobserver token",
          .read 3, .log "acquired jobserver token", .log "releasing jobserver token",
          .write 4 43, .log "released jobserver token"] ∧
      ((Release kernelSys (some tok)
          (Acquire kernelSys ⟨3, 4⟩ (makeKernel [43, 44])).2).2.pipes 0).buf = [44] ++ [43] ∧
      ((Release kernelSys (some tok)
          (Acquire kernelSys ⟨3, 4⟩ (makeKernel [43, 44])).2).2.pipes 0).buf.length =
        ((makeKernel [43, 44]).pipes 0).buf.length :=
  Acquire_Release_roundtrip ⟨3, 4⟩ (makeKernel [43, 44]) (plainFd (.pipeRead 0) 0x800)
    (plainFd (.pipeWrite 0) 0x1) 0 43 [44] (by decide) (by decide) (by decide) (by decide)
    (by decide) (by decide)

end Jobserver
